import Mathlib

/-
Verification of the BatchReactor facility
(src/Models/BatchReactor/batch_reactor.cc).

Quantities are embedded as exact rationals.  The cyclus resource layer
(Material, ResourceBuff) is an external collaborator of this repository;
its operations are modelled from the spec's interface contracts (sections
3 and 4.1).  Helper accessors declared only in the missing header
(end_time, order_time, n_core, BatchIn) are modelled from the spec and
marked as such.
-/

deriving instance DecidableEq for Except

namespace Cycamore

/-- Material quantities: exact rationals (the C++ uses double). -/
abbrev Qty := ℚ

/-- Modelled from the spec (section 7): the fixed epsilon tolerance shared by
quantity comparisons, cyclus eps().  cyclus uses 1e-6. -/
def eps : Qty := 1 / 1000000

/-- Modelled from the spec (section 4.4): the negligible-quantity threshold for
resource remainders, cyclus eps_rsrc().  cyclus uses 1e-6. -/
def eps_rsrc : Qty := 1 / 1000000

/-- Errors surfaced by the buffer / material layer and by out-of-range element
access.  emptyBuffer: pop on an empty buffer.  insufficientQty: pop-by-quantity
or extract beyond what is available.  outOfRange: element access on an empty
vector (responses.at(0) throws std::out_of_range; manifest[0] on an empty
vector is undefined behaviour in C++, modelled here as the same failure). -/
inductive CycError where
  | emptyBuffer : CycError
  | insufficientQty : CycError
  | outOfRange : CycError
deriving DecidableEq, Repr

/-- Modelled from the spec (section 3): an opaque material quantity tagged
with a recipe identifier. -/
structure Material where
  qty : Qty
  recipe : String
deriving DecidableEq, Repr

/-- Modelled from the spec (section 3): absorb merges the other material into
this one; the quantity adds, the absorber keeps its composition tag. -/
def Material.Absorb (m other : Material) : Material :=
  { qty := m.qty + other.qty, recipe := m.recipe }

/-- Modelled from the spec (section 3): extract splits off amount, failing when
amount exceeds the held quantity. -/
def Material.Extract (m : Material) (amount : Qty) :
    Except CycError (Material × Material) :=
  if m.qty < amount then .error .insufficientQty
  else .ok (⟨amount, m.recipe⟩, ⟨m.qty - amount, m.recipe⟩)

/-- Modelled from the spec (section 3): transmute replaces the composition tag
in place, preserving quantity. -/
def Material.Transmute (m : Material) (newRecipe : String) : Material :=
  { qty := m.qty, recipe := newRecipe }

/-- Total quantity of a list of materials. -/
def listQty (l : List Material) : Qty := (l.map Material.qty).sum

/-- Modelled from the spec (sections 3, 4.1): an ordered buffer of material
batches; the head of mats is the first-pushed (front) batch. -/
structure ResourceBuff where
  mats : List Material
deriving DecidableEq, Repr

/-- Modelled from the spec (section 4.1): push appends at the back. -/
def ResourceBuff.Push (b : ResourceBuff) (m : Material) : ResourceBuff :=
  ⟨b.mats ++ [m]⟩

/-- Modelled from the spec (section 4.1): total quantity held. -/
def ResourceBuff.quantity (b : ResourceBuff) : Qty := listQty b.mats

/-- Modelled from the spec (section 4.1): number of batches held. -/
def ResourceBuff.count (b : ResourceBuff) : Nat := b.mats.length

/-- Modelled from the spec (section 4.1): pop removes and returns the front
batch, failing on an empty buffer. -/
def ResourceBuff.Pop (b : ResourceBuff) :
    Except CycError (Material × ResourceBuff) :=
  match b.mats with
  | [] => .error .emptyBuffer
  | m :: rest => .ok (m, ⟨rest⟩)

/-- Modelled from the spec (section 4.1): pop_back removes and returns the back
batch, failing on an empty buffer. -/
def ResourceBuff.PopBack (b : ResourceBuff) :
    Except CycError (Material × ResourceBuff) :=
  match b.mats.getLast? with
  | none => .error .emptyBuffer
  | some m => .ok (m, ⟨b.mats.dropLast⟩)

/-- Modelled from the spec (section 4.1): the removal loop of pop_quantity.
Removes batches from the front, splitting the last one when it would
overshoot, until exactly the requested amount has been removed.  Returns the
removed manifest (in removal order) and the remaining buffer contents. -/
def popQtyLoop : List Material → Qty → List Material × List Material
  | [], _ => ([], [])
  | m :: rest, left =>
    if left ≤ 0 then ([], m :: rest)
    else if left < m.qty then
      ([⟨left, m.recipe⟩], ⟨m.qty - left, m.recipe⟩ :: rest)
    else
      let p := popQtyLoop rest (left - m.qty)
      (m :: p.1, p.2)

/-- Modelled from the spec (section 4.1): pop_quantity fails with
InsufficientQuantityError when the requested amount exceeds the buffer's
total quantity, otherwise removes exactly that amount. -/
def ResourceBuff.PopQty (b : ResourceBuff) (amount : Qty) :
    Except CycError (List Material × ResourceBuff) :=
  if b.quantity < amount then .error .insufficientQty
  else
    let p := popQtyLoop b.mats amount
    .ok (p.1, ⟨p.2⟩)

/-- The facility phase enum (source: batch_reactor.h / this file's switch
statements): INITIAL, PROCESS, WAITING. -/
inductive Phase where
  | INITIAL : Phase
  | PROCESS : Phase
  | WAITING : Phase
deriving DecidableEq, Repr

/-- The BatchReactor facility state: scalar configuration, phase bookkeeping
and the three buffers (source: constructor, lines 24-46, and the data members
referenced throughout batch_reactor.cc). -/
structure BatchReactor where
  process_time_ : Int
  preorder_time_ : Int
  start_time_ : Int
  n_batches_ : Int
  n_load_ : Int
  n_reserves_ : Int
  refuel_time_ : Int
  batch_size_ : Qty
  in_commodity_ : String
  in_recipe_ : String
  out_commodity_ : String
  out_recipe_ : String
  phase_ : Phase
  reserves_ : ResourceBuff
  core_ : ResourceBuff
  storage_ : ResourceBuff
deriving DecidableEq, Repr

/-- The constructor defaults (source lines 24-46): process_time 1,
preorder_time 0, start_time -1, n_batches 1, n_load 1, n_reserves 1,
refuel_time 0, batch_size 1, empty commodity and recipe names, phase INITIAL,
all buffers empty. -/
def initialReactor : BatchReactor :=
  { process_time_ := 1
    preorder_time_ := 0
    start_time_ := -1
    n_batches_ := 1
    n_load_ := 1
    n_reserves_ := 1
    refuel_time_ := 0
    batch_size_ := 1
    in_commodity_ := ""
    in_recipe_ := ""
    out_commodity_ := ""
    out_recipe_ := ""
    phase_ := .INITIAL
    reserves_ := ⟨[]⟩
    core_ := ⟨[]⟩
    storage_ := ⟨[]⟩ }

/-- Modelled from the spec (section 4.3, header accessor missing from src):
end_time() is start_time + process_time, the tick at which the current
processing run completes. -/
def BatchReactor.end_time (s : BatchReactor) : Int :=
  s.start_time_ + s.process_time_

/-- Modelled from the spec (sections 4.2, 6, header accessor missing from
src): order_time() is the first tick at which an order may be placed,
preorder_time (lookahead) ticks before the end of the processing run. -/
def BatchReactor.order_time (s : BatchReactor) : Int :=
  s.end_time - s.preorder_time_

/-- Modelled from the spec (section 4.3, header accessor missing from src):
n_core() is the number of batches in the core buffer. -/
def BatchReactor.n_core (s : BatchReactor) : Int :=
  (s.core_.count : Int)

/-- The phase setter (source lines 350-356): entering PROCESS records
start_time = the current context time; every call stores the new phase. -/
def BatchReactor.phase (s : BatchReactor) (ctxTime : Int) (p : Phase) :
    BatchReactor :=
  match p with
  | .PROCESS => { s with start_time_ := ctxTime, phase_ := p }
  | _ => { s with phase_ := p }

/-- MoveBatchIn_ (source lines 366-368): push the front reserves batch into
the core. -/
def BatchReactor.MoveBatchIn_ (s : BatchReactor) :
    Except CycError BatchReactor :=
  match s.reserves_.Pop with
  | .error e => .error e
  | .ok (m, res1) => .ok { s with reserves_ := res1, core_ := s.core_.Push m }

/-- MoveBatchOut_ (source lines 371-376): pop the front core batch, transmute
it to the out recipe, push it into storage. -/
def BatchReactor.MoveBatchOut_ (s : BatchReactor) :
    Except CycError BatchReactor :=
  match s.core_.Pop with
  | .error e => .error e
  | .ok (m, core1) =>
    .ok { s with core_ := core1,
                 storage_ := s.storage_.Push (m.Transmute s.out_recipe_) }

/-- The Refuel_ while loop (source lines 359-363) unrolled over the reserves
list: as long as the core holds fewer than n_batches batches and the front
reserves batch is a full batch (BatchIn, modelled from the spec section
4.3.2: quantity at least batch_size), move it into the core.  Terminates
because every iteration consumes one reserves batch. -/
def refuelLoop (nb : Int) (bs : Qty) :
    List Material → List Material → List Material × List Material
  | [], core => ([], core)
  | m :: rest, core =>
    if (core.length : Int) < nb ∧ bs ≤ m.qty then
      refuelLoop nb bs rest (core ++ [m])
    else (m :: rest, core)

/-- Refuel_ (source lines 359-363). -/
def BatchReactor.Refuel_ (s : BatchReactor) : BatchReactor :=
  let p := refuelLoop s.n_batches_ s.batch_size_ s.reserves_.mats s.core_.mats
  { s with reserves_ := ⟨p.1⟩, core_ := ⟨p.2⟩ }

/-- The discharge for loop body of HandleTick (source lines 213-215): run
MoveBatchOut_ n times, propagating any failure. -/
def BatchReactor.dischargeN : BatchReactor → Nat → Except CycError BatchReactor
  | s, 0 => .ok s
  | s, Nat.succ n =>
    match s.MoveBatchOut_ with
    | .error e => .error e
    | .ok s1 => s1.dischargeN n

/-- HandleTick (source lines 209-232).  time is the tick argument; ctxTime is
context()->time() (used by the WAITING guard and the phase setter). -/
def BatchReactor.HandleTick (s : BatchReactor) (time ctxTime : Int) :
    Except CycError BatchReactor :=
  match s.phase_ with
  | .PROCESS =>
    if time = s.end_time then
      match s.dischargeN s.n_load_.toNat with
      | .error e => .error e
      | .ok s1 => .ok (s1.phase ctxTime .WAITING)
    else .ok s
  | .WAITING =>
    if s.n_core = s.n_batches_ ∧ s.end_time + s.refuel_time_ ≤ ctxTime then
      .ok (s.phase ctxTime .PROCESS)
    else .ok s
  | .INITIAL =>
    if s.n_core = s.n_batches_ then .ok (s.phase ctxTime .PROCESS)
    else .ok s

/-- HandleTock (source lines 235-242): refuel while INITIAL or WAITING;
nothing in PROCESS. -/
def BatchReactor.HandleTock (s : BatchReactor) (_time : Int) : BatchReactor :=
  match s.phase_ with
  | .INITIAL => s.Refuel_
  | .WAITING => s.Refuel_
  | .PROCESS => s

/-- A fuel request portfolio (source: GetOrder_, lines 379-395): one request
of qty for recipe at commodity, with one capacity constraint. -/
structure RequestPortfolio where
  req_qty : Qty
  req_recipe : String
  req_commod : String
  constraint : Qty
deriving DecidableEq, Repr

/-- GetOrder_ (source lines 379-395): the request targets size of in_recipe at
in_commodity, with a capacity constraint equal to size. -/
def BatchReactor.GetOrder_ (s : BatchReactor) (size : Qty) : RequestPortfolio :=
  { req_qty := size
    req_recipe := s.in_recipe_
    req_commod := s.in_commodity_
    constraint := size }

/-- GetMatlRequests (source lines 245-273, live code only): order_size is
n_reserves * batch_size - reserves.quantity(); a portfolio is produced iff
order_time() has arrived and order_size exceeds eps. -/
def BatchReactor.GetMatlRequests (s : BatchReactor) (ctxTime : Int) :
    Option RequestPortfolio :=
  let order_size := (s.n_reserves_ : Qty) * s.batch_size_ - s.reserves_.quantity
  if s.order_time ≤ ctxTime ∧ eps < order_size then
    some (s.GetOrder_ order_size)
  else none

/-- A bid answering one request (source: GetMatlBids, lines 287-319). -/
structure Bid where
  req_qty : Qty
  offer_qty : Qty
  offer_recipe : String
deriving DecidableEq, Repr

/-- A bid portfolio with its single capacity constraint. -/
structure BidPortfolio where
  bids : List Bid
  constraint : Qty
deriving DecidableEq, Repr

/-- GetMatlBids (source lines 287-319): bid exactly the requested quantity for
every request strictly below storage.quantity(); publish one capacity
constraint equal to storage.quantity().  requests holds the target quantities
of the inbound requests for out_commodity. -/
def BatchReactor.GetMatlBids (s : BatchReactor) (requests : List Qty) :
    BidPortfolio :=
  { bids := (requests.filter (fun q => q < s.storage_.quantity)).map
      (fun q => { req_qty := q, offer_qty := q, offer_recipe := s.out_recipe_ })
    constraint := s.storage_.quantity }

/-- The per-trade body of the GetMatlTrades loop (source lines 330-346): pop
the traded amount from storage, then merge the manifest into one material via
repeated Absorb starting from manifest[0].  manifest[0] on an empty manifest
is undefined behaviour in C++, modelled as the outOfRange failure. -/
def BatchReactor.settleTrade (s : BatchReactor) (qty : Qty) :
    Except CycError (Material × BatchReactor) :=
  match s.storage_.PopQty qty with
  | .error e => .error e
  | .ok (manifest, stor1) =>
    match manifest with
    | [] => .error .outOfRange
    | m0 :: rest =>
      .ok (rest.foldl Material.Absorb m0, { s with storage_ := stor1 })

/-- GetMatlTrades (source lines 322-347): settle each trade in order, pairing
the merged response with its trade amount. -/
def BatchReactor.GetMatlTrades :
    BatchReactor → List Qty → Except CycError (List (Qty × Material) × BatchReactor)
  | s, [] => .ok ([], s)
  | s, qty :: rest =>
    match s.settleTrade qty with
    | .error e => .error e
    | .ok (resp, s1) =>
      match s1.GetMatlTrades rest with
      | .error e => .error e
      | .ok (resps, s2) => .ok ((qty, resp) :: resps, s2)

/-- The while loop of AddBatches_ (source lines 414-417) unrolled on fuel:
while the material holds more than batch_size, extract one full batch_size
chunk and push it.  Each C++ iteration removes batch_size from the material,
so for a positive batch size the iteration count is bounded by the ceiling of
quantity / batch_size, which the caller supplies as fuel.  (For a non-positive
batch size the C++ loop would not terminate.) -/
def chunkLoop (bs : Qty) (rec : String) : Nat → Qty → List Material × Qty
  | 0, q => ([], q)
  | Nat.succ n, q =>
    if bs < q then
      let p := chunkLoop bs rec n (q - bs)
      (⟨bs, rec⟩ :: p.1, p.2)
    else ([], q)

/-- The tail of AddBatches_ after the partial-batch top-up (source lines
414-419): extract full batch_size chunks while more than batch_size remains,
push them, then push the remainder only if it exceeds eps_rsrc (a smaller
remainder is silently discarded). -/
def BatchReactor.AddBatchesLoop_ (s : BatchReactor) (mat : Material) :
    Except CycError BatchReactor :=
  let fuel := (⌈mat.qty / s.batch_size_⌉).toNat
  let p := chunkLoop s.batch_size_ mat.recipe fuel mat.qty
  let res2 := p.1.foldl ResourceBuff.Push s.reserves_
  if eps_rsrc < p.2 then
    .ok { s with reserves_ := res2.Push ⟨p.2, mat.recipe⟩ }
  else
    .ok { s with reserves_ := res2 }

/-- AddBatches_ (source lines 398-420): pop the trailing reserves batch; if it
is under-full, either absorb the whole delivery into it (when it fits) or top
it up to exactly batch_size from the delivery; push it back; then quantize the
rest of the delivery into batch_size chunks plus an optional remainder.  The
initial PopBack is unconditional, so an empty reserves buffer fails with
EmptyBufferError. -/
def BatchReactor.AddBatches_ (s : BatchReactor) (mat : Material) :
    Except CycError BatchReactor :=
  match s.reserves_.PopBack with
  | .error e => .error e
  | .ok (last, res1) =>
    if last.qty < s.batch_size_ then
      if last.qty + mat.qty ≤ s.batch_size_ then
        .ok { s with reserves_ := res1.Push (last.Absorb mat) }
      else
        match mat.Extract (s.batch_size_ - last.qty) with
        | .error e => .error e
        | .ok (last_bit, mat1) =>
          BatchReactor.AddBatchesLoop_
            { s with reserves_ := res1.Push (last.Absorb last_bit) } mat1
    else
      BatchReactor.AddBatchesLoop_ { s with reserves_ := res1.Push last } mat

/-- AcceptMatlTrades (source lines 276-284): unconditionally read the first
response (responses.at(0) throws std::out_of_range on an empty list), absorb
every further response into it, then run a single AddBatches_ pass on the
combined material.  Only the material part of each (trade, material) response
pair is used. -/
def BatchReactor.AcceptMatlTrades (s : BatchReactor)
    (responses : List Material) : Except CycError BatchReactor :=
  match responses with
  | [] => .error .outOfRange
  | m0 :: rest => s.AddBatches_ (rest.foldl Material.Absorb m0)

/-- The parsed configuration consumed by InitModuleMembers (source lines
110-156).  The required integer fields arrive through lexical_cast<int>; note
the source also casts batchsize with lexical_cast<int>, so it reaches the
facility as an integer.  Optional fields are absent when the input omits
them. -/
structure InputConfig where
  incommodity : String
  inrecipe : String
  outcommodity : String
  outrecipe : String
  processtime : Int
  nbatches : Int
  batchsize : Int
  refueltime : Option Int
  orderlookahead : Option Int
  nreload : Option Int
  norder : Option Int
deriving DecidableEq, Repr

/-- InitModuleMembers (source lines 110-156): store every configuration value
verbatim.  No range validation is performed anywhere in the function: no check
on batch_size positivity, none on the time parameters.  Optional fields
default to the current member values; note the source defaults norder
(n_reserves) to n_load() after nreload has been applied (line 143).  The
commodity_production block only forwards to the external CommodityProducer
collaborator and touches no member used by this core.  The Except codomain
records that the function has no failure path of its own. -/
def BatchReactor.InitModuleMembers (s : BatchReactor) (cfg : InputConfig) :
    Except CycError BatchReactor :=
  let s1 := { s with in_commodity_ := cfg.incommodity
                     in_recipe_ := cfg.inrecipe
                     out_commodity_ := cfg.outcommodity
                     out_recipe_ := cfg.outrecipe }
  let s2 := { s1 with process_time_ := cfg.processtime
                      n_batches_ := cfg.nbatches
                      batch_size_ := (cfg.batchsize : Qty) }
  let s3 := { s2 with refuel_time_ := cfg.refueltime.getD s2.refuel_time_
                      preorder_time_ := cfg.orderlookahead.getD s2.preorder_time_ }
  let s4 := { s3 with n_load_ := cfg.nreload.getD s3.n_load_ }
  .ok { s4 with n_reserves_ := cfg.norder.getD s4.n_load_ }

/-- Clone (source lines 159-182): a fresh constructor-defaulted instance, then
copy in/out commodities and recipes, process_time, preorder_time, start_time,
n_batches, n_load, n_reserves and batch_size.  refuel_time is absent from the
copied list, so the clone keeps the constructor default.  The buffers of the
fresh instance are empty. -/
def BatchReactor.Clone (s : BatchReactor) : BatchReactor :=
  { initialReactor with
      in_commodity_ := s.in_commodity_
      out_commodity_ := s.out_commodity_
      in_recipe_ := s.in_recipe_
      out_recipe_ := s.out_recipe_
      process_time_ := s.process_time_
      preorder_time_ := s.preorder_time_
      start_time_ := s.start_time_
      n_batches_ := s.n_batches_
      n_load_ := s.n_load_
      n_reserves_ := s.n_reserves_
      batch_size_ := s.batch_size_ }

/-- The facility-wide material total: reserves + core + storage. -/
def totalQty (s : BatchReactor) : Qty :=
  s.reserves_.quantity + s.core_.quantity + s.storage_.quantity

/-! Concrete facility states used to instantiate the claim theorems. -/

/-- A facility with batch_size 10, one full reserves batch and one storage
batch. -/
def c1State : BatchReactor :=
  { initialReactor with
      batch_size_ := 10
      reserves_ := ⟨[⟨10, "r"⟩]⟩
      storage_ := ⟨[⟨10, "s"⟩]⟩ }

/-- c1State after settling a trade of 5. -/
def c1TradeRes : BatchReactor :=
  { c1State with storage_ := ⟨[⟨5, "s"⟩]⟩ }

/-- c1State after absorbing a delivery of 5. -/
def c1AddRes : BatchReactor :=
  { c1State with reserves_ := ⟨[⟨10, "r"⟩, ⟨5, "f"⟩]⟩ }

/-- c1State after absorbing a delivery of 10 + 1/2000000: the extracted full
batch is kept, the 1/2000000 remainder is dropped. -/
def c1xRes : BatchReactor :=
  { c1State with reserves_ := ⟨[⟨10, "r"⟩, ⟨10, "f"⟩]⟩ }

/-- A PROCESS-phase facility mid-run: start_time 0, process_time 5, one core
batch, n_load 1. -/
def c3State : BatchReactor :=
  { initialReactor with
      phase_ := .PROCESS
      start_time_ := 0
      process_time_ := 5
      n_load_ := 1
      out_recipe_ := "spent"
      core_ := ⟨[⟨10, "c"⟩]⟩ }

/-- A WAITING-phase facility with a full core, whose previous run ended at
tick 5 and whose refuel_time is 2. -/
def c4State : BatchReactor :=
  { initialReactor with
      phase_ := .WAITING
      start_time_ := 0
      process_time_ := 5
      refuel_time_ := 2
      n_batches_ := 1
      core_ := ⟨[⟨10, "c"⟩]⟩ }

/-- c4State after the WAITING to PROCESS transition at context time 7. -/
def c4Res : BatchReactor :=
  { c4State with start_time_ := 7, phase_ := .PROCESS }

/-- A facility holding 10 units of spent fuel in storage. -/
def c5State : BatchReactor :=
  { initialReactor with out_recipe_ := "spent", storage_ := ⟨[⟨10, "s"⟩]⟩ }

/-- A facility holding 10 units in storage, for trade settlement. -/
def c6State : BatchReactor :=
  { initialReactor with storage_ := ⟨[⟨10, "s"⟩]⟩ }

/-- A facility wanting 2 reserve batches of size 10, with empty reserves. -/
def c7State : BatchReactor :=
  { initialReactor with n_reserves_ := 2, batch_size_ := 10 }

/-- c7State with its reserves target already met. -/
def c7Full : BatchReactor :=
  { c7State with reserves_ := ⟨[⟨20, "r"⟩]⟩ }

/-- A configuration whose batchsize field is the non-positive value -1. -/
def cfg8 : InputConfig :=
  { incommodity := "uox"
    inrecipe := "fresh"
    outcommodity := "spent-uox"
    outrecipe := "spent"
    processtime := 5
    nbatches := 3
    batchsize := -1
    refueltime := none
    orderlookahead := none
    nreload := none
    norder := none }

/-- A facility configured with refuel_time 7 (and a few other non-default
scalars), used to exercise Clone. -/
def c9State : BatchReactor :=
  { initialReactor with
      refuel_time_ := 7
      process_time_ := 3
      n_batches_ := 2
      batch_size_ := 10
      preorder_time_ := 4
      n_load_ := 2
      n_reserves_ := 3
      in_commodity_ := "uox"
      out_commodity_ := "spent-uox"
      in_recipe_ := "fresh"
      out_recipe_ := "spent" }

/-! Helper lemmas about the buffer layer. -/

theorem listQty_nil : listQty [] = 0 := rfl

theorem listQty_cons (m : Material) (l : List Material) :
    listQty (m :: l) = m.qty + listQty l := by
  simp [listQty]

theorem listQty_append (l1 l2 : List Material) :
    listQty (l1 ++ l2) = listQty l1 + listQty l2 := by
  simp [listQty]

theorem push_quantity (b : ResourceBuff) (m : Material) :
    (b.Push m).quantity = b.quantity + m.qty := by
  simp [ResourceBuff.Push, ResourceBuff.quantity, listQty_append, listQty_cons,
    listQty_nil]

theorem popBack_ok {b : ResourceBuff} {last : Material} {res1 : ResourceBuff}
    (h : b.PopBack = .ok (last, res1)) :
    b.mats = res1.mats ++ [last] := by
  unfold ResourceBuff.PopBack at h
  cases hl : b.mats.getLast? with
  | none => rw [hl] at h; exact absurd h (by simp)
  | some m =>
    rw [hl] at h
    simp only [Except.ok.injEq, Prod.mk.injEq] at h
    obtain ⟨h1, h2⟩ := h
    have hne : b.mats ≠ [] := by
      intro he; rw [he] at hl; simp at hl
    have hm : b.mats.getLast hne = m := by
      have hg := List.getLast?_eq_getLast b.mats hne
      rw [hl] at hg
      exact (Option.some.inj hg).symm
    rw [← h2, ← h1]
    have hd := List.dropLast_append_getLast hne
    rw [hm] at hd
    exact hd.symm

theorem popBack_quantity {b : ResourceBuff} {last : Material}
    {res1 : ResourceBuff} (h : b.PopBack = .ok (last, res1)) :
    b.quantity = res1.quantity + last.qty := by
  have := popBack_ok h
  simp [ResourceBuff.quantity, this, listQty_append, listQty_cons, listQty_nil]

theorem popQtyLoop_nonpos (l : List Material) {left : Qty} (h : left ≤ 0) :
    popQtyLoop l left = ([], l) := by
  cases l with
  | nil => rfl
  | cons m rest => simp [popQtyLoop, h]

theorem popQtyLoop_sums (l : List Material) : ∀ left : Qty, 0 ≤ left →
    left ≤ listQty l →
    listQty (popQtyLoop l left).1 = left ∧
    listQty (popQtyLoop l left).2 = listQty l - left := by
  induction l with
  | nil =>
    intro left h0 hle
    have hz : left = 0 := le_antisymm (by simpa [listQty] using hle) h0
    subst hz
    simp [popQtyLoop, listQty]
  | cons m rest ih =>
    intro left h0 hle
    rcases eq_or_lt_of_le h0 with hz | hpos
    · rw [← hz, popQtyLoop_nonpos _ le_rfl]
      simp [listQty]
    · simp only [popQtyLoop, if_neg (not_le.mpr hpos)]
      by_cases hlt : left < m.qty
      · simp only [if_pos hlt]
        constructor
        · simp [listQty_cons, listQty_nil]
        · simp [listQty_cons]; ring
      · simp only [if_neg hlt]
        have hmq : m.qty ≤ left := not_lt.mp hlt
        have hle2 : left - m.qty ≤ listQty rest := by
          rw [listQty_cons] at hle; linarith
        have h02 : 0 ≤ left - m.qty := by linarith
        obtain ⟨ha, hb⟩ := ih (left - m.qty) h02 hle2
        constructor
        · simp only [listQty_cons, ha]; ring
        · rw [hb, listQty_cons]; ring

theorem popQtyLoop_fst_pos {l : List Material} {left : Qty}
    (h : (popQtyLoop l left).1 ≠ []) : 0 < left := by
  by_contra hc
  exact h (by rw [popQtyLoop_nonpos l (not_lt.mp hc)])

theorem popQty_ok {b : ResourceBuff} {amount : Qty} {man : List Material}
    {rem : ResourceBuff} (h : b.PopQty amount = .ok (man, rem)) :
    amount ≤ b.quantity ∧ man = (popQtyLoop b.mats amount).1 ∧
    rem = ⟨(popQtyLoop b.mats amount).2⟩ := by
  unfold ResourceBuff.PopQty at h
  by_cases hq : b.quantity < amount
  · rw [if_pos hq] at h; exact absurd h (by simp)
  · rw [if_neg hq] at h
    simp only [Except.ok.injEq, Prod.mk.injEq] at h
    exact ⟨not_lt.mp hq, h.1.symm, h.2.symm⟩

theorem chunkLoop_mass (bs : Qty) (rec : String) : ∀ (n : Nat) (q : Qty),
    listQty (chunkLoop bs rec n q).1 + (chunkLoop bs rec n q).2 = q := by
  intro n
  induction n with
  | zero => intro q; simp [chunkLoop, listQty]
  | succ n ih =>
    intro q
    by_cases h : bs < q
    · simp only [chunkLoop, if_pos h, listQty_cons]
      have := ih (q - bs)
      linarith
    · simp [chunkLoop, if_neg h, listQty]

theorem chunkLoop_snd_nonneg (bs : Qty) (rec : String) : ∀ (n : Nat) (q : Qty),
    0 ≤ q → 0 ≤ (chunkLoop bs rec n q).2 := by
  intro n
  induction n with
  | zero => intro q hq; simpa [chunkLoop] using hq
  | succ n ih =>
    intro q hq
    by_cases h : bs < q
    · simp only [chunkLoop, if_pos h]
      exact ih (q - bs) (by linarith)
    · simpa [chunkLoop, if_neg h] using hq

theorem foldl_push_quantity (l : List Material) : ∀ b : ResourceBuff,
    (l.foldl ResourceBuff.Push b).quantity = b.quantity + listQty l := by
  induction l with
  | nil => intro b; simp [listQty]
  | cons m rest ih =>
    intro b
    simp only [List.foldl_cons, ih, push_quantity, listQty_cons]
    ring

theorem foldl_absorb_qty (l : List Material) : ∀ m : Material,
    (l.foldl Material.Absorb m).qty = m.qty + listQty l := by
  induction l with
  | nil => intro m; simp [listQty]
  | cons x rest ih =>
    intro m
    simp only [List.foldl_cons, ih, Material.Absorb, listQty_cons]
    ring

theorem refuelLoop_mass (nb : Int) (bs : Qty) : ∀ (res core : List Material),
    listQty (refuelLoop nb bs res core).1 +
      listQty (refuelLoop nb bs res core).2 = listQty res + listQty core := by
  intro res
  induction res with
  | nil => intro core; simp [refuelLoop, listQty]
  | cons m rest ih =>
    intro core
    by_cases h : ((core.length : Int) < nb ∧ bs ≤ m.qty)
    · simp only [refuelLoop, if_pos h]
      have := ih (core ++ [m])
      rw [this, listQty_append, listQty_cons, listQty_cons, listQty_nil]
      ring
    · simp [refuelLoop, if_neg h]

/-! Lemmas about the facility operations. -/

theorem MoveBatchOut_ok {s s1 : BatchReactor} (h : s.MoveBatchOut_ = .ok s1) :
    ∃ m rest, s.core_.mats = m :: rest ∧
      s1 = { s with core_ := ⟨rest⟩,
                    storage_ := s.storage_.Push (m.Transmute s.out_recipe_) } := by
  unfold BatchReactor.MoveBatchOut_ ResourceBuff.Pop at h
  cases hc : s.core_.mats with
  | nil => rw [hc] at h; exact absurd h (by simp)
  | cons m rest =>
    rw [hc] at h
    simp only [Except.ok.injEq] at h
    exact ⟨m, rest, rfl, h.symm⟩

theorem MoveBatchOut_mass {s s1 : BatchReactor} (h : s.MoveBatchOut_ = .ok s1) :
    totalQty s1 = totalQty s := by
  obtain ⟨m, rest, hc, rfl⟩ := MoveBatchOut_ok h
  simp only [totalQty, ResourceBuff.quantity, ResourceBuff.Push, hc,
    listQty_append, listQty_cons, listQty_nil, Material.Transmute]
  ring

theorem dischargeN_mass : ∀ (n : Nat) (s s1 : BatchReactor),
    s.dischargeN n = .ok s1 → totalQty s1 = totalQty s := by
  intro n
  induction n with
  | zero =>
    intro s s1 h
    simp only [BatchReactor.dischargeN, Except.ok.injEq] at h
    rw [← h]
  | succ n ih =>
    intro s s1 h
    unfold BatchReactor.dischargeN at h
    cases hm : s.MoveBatchOut_ with
    | error e => rw [hm] at h; exact absurd h (by simp)
    | ok s2 =>
      rw [hm] at h
      rw [ih s2 s1 h, MoveBatchOut_mass hm]

theorem phase_total (s : BatchReactor) (ctxTime : Int) (p : Phase) :
    totalQty (s.phase ctxTime p) = totalQty s := by
  cases p <;> simp [BatchReactor.phase, totalQty]

theorem phase_buffers (s : BatchReactor) (ctxTime : Int) (p : Phase) :
    (s.phase ctxTime p).reserves_ = s.reserves_ ∧
    (s.phase ctxTime p).core_ = s.core_ ∧
    (s.phase ctxTime p).storage_ = s.storage_ := by
  cases p <;> simp [BatchReactor.phase]

theorem HandleTick_mass {s s1 : BatchReactor} {time ctxTime : Int}
    (h : s.HandleTick time ctxTime = .ok s1) : totalQty s1 = totalQty s := by
  unfold BatchReactor.HandleTick at h
  cases hp : s.phase_ with
  | PROCESS =>
    rw [hp] at h
    by_cases ht : time = s.end_time
    · rw [if_pos ht] at h
      cases hd : s.dischargeN s.n_load_.toNat with
      | error e => rw [hd] at h; exact absurd h (by simp)
      | ok s2 =>
        rw [hd] at h
        simp only [Except.ok.injEq] at h
        rw [← h, phase_total, dischargeN_mass _ _ _ hd]
    · rw [if_neg ht] at h
      simp only [Except.ok.injEq] at h
      rw [← h]
  | WAITING =>
    rw [hp] at h
    by_cases hg : (s.n_core = s.n_batches_ ∧ s.end_time + s.refuel_time_ ≤ ctxTime)
    · rw [if_pos hg] at h
      simp only [Except.ok.injEq] at h
      rw [← h, phase_total]
    · rw [if_neg hg] at h
      simp only [Except.ok.injEq] at h
      rw [← h]
  | INITIAL =>
    rw [hp] at h
    by_cases hg : s.n_core = s.n_batches_
    · rw [if_pos hg] at h
      simp only [Except.ok.injEq] at h
      rw [← h, phase_total]
    · rw [if_neg hg] at h
      simp only [Except.ok.injEq] at h
      rw [← h]

theorem Refuel_mass (s : BatchReactor) : totalQty s.Refuel_ = totalQty s := by
  have := refuelLoop_mass s.n_batches_ s.batch_size_ s.reserves_.mats s.core_.mats
  simp only [BatchReactor.Refuel_, totalQty, ResourceBuff.quantity]
  linarith

theorem HandleTock_mass (s : BatchReactor) (time : Int) :
    totalQty (s.HandleTock time) = totalQty s := by
  unfold BatchReactor.HandleTock
  cases s.phase_ <;> simp [Refuel_mass]

theorem settleTrade_ok {s : BatchReactor} {qty : Qty} {m : Material}
    {s1 : BatchReactor} (h : s.settleTrade qty = .ok (m, s1)) :
    m.qty = qty ∧ s1.storage_.quantity = s.storage_.quantity - qty ∧
    s1.reserves_ = s.reserves_ ∧ s1.core_ = s.core_ ∧ s1.phase_ = s.phase_ := by
  unfold BatchReactor.settleTrade at h
  cases hq : s.storage_.PopQty qty with
  | error e => rw [hq] at h; exact absurd h (by simp)
  | ok pr =>
    obtain ⟨manifest, stor1⟩ := pr
    rw [hq] at h
    obtain ⟨hle, hman, hrem⟩ := popQty_ok hq
    cases hm : manifest with
    | nil => rw [hm] at h; exact absurd h (by simp)
    | cons m0 rest =>
      rw [hm] at h
      simp only [Except.ok.injEq, Prod.mk.injEq] at h
      obtain ⟨h1, h2⟩ := h
      have hne : (popQtyLoop s.storage_.mats qty).1 ≠ [] := by
        rw [← hman, hm]; simp
      have hpos : 0 < qty := popQtyLoop_fst_pos hne
      have hsums := popQtyLoop_sums s.storage_.mats qty hpos.le hle
      have hmq : listQty manifest = qty := by rw [hman]; exact hsums.1
      refine ⟨?_, ?_, ?_, ?_, ?_⟩
      · rw [← h1, foldl_absorb_qty]
        rw [hm, listQty_cons] at hmq
        linarith
      · rw [← h2]
        show stor1.quantity = s.storage_.quantity - qty
        rw [hrem]
        show listQty (popQtyLoop s.storage_.mats qty).2 =
          s.storage_.quantity - qty
        exact hsums.2
      · rw [← h2]
      · rw [← h2]
      · rw [← h2]

theorem GetMatlTrades_ok : ∀ (trades : List Qty) (s : BatchReactor)
    (resps : List (Qty × Material)) (s2 : BatchReactor),
    s.GetMatlTrades trades = .ok (resps, s2) →
    s2.storage_.quantity = s.storage_.quantity - trades.sum ∧
    s2.reserves_ = s.reserves_ ∧ s2.core_ = s.core_ ∧
    resps.map Prod.fst = trades := by
  intro trades
  induction trades with
  | nil =>
    intro s resps s2 h
    simp only [BatchReactor.GetMatlTrades, Except.ok.injEq, Prod.mk.injEq] at h
    obtain ⟨h1, h2⟩ := h
    rw [← h1, ← h2]
    simp
  | cons qty rest ih =>
    intro s resps s2 h
    unfold BatchReactor.GetMatlTrades at h
    cases hst : s.settleTrade qty with
    | error e => rw [hst] at h; exact absurd h (by simp)
    | ok pr =>
      obtain ⟨resp, s1⟩ := pr
      rw [hst] at h
      dsimp only at h
      cases hrec : s1.GetMatlTrades rest with
      | error e => rw [hrec] at h; exact absurd h (by simp)
      | ok pr2 =>
        obtain ⟨resps1, s3⟩ := pr2
        rw [hrec] at h
        simp only [Except.ok.injEq, Prod.mk.injEq] at h
        obtain ⟨h1, h2⟩ := h
        obtain ⟨_, hstq, hres, hcore, _⟩ := settleTrade_ok hst
        obtain ⟨ih1, ih2, ih3, ih4⟩ := ih s1 resps1 s3 hrec
        subst h2
        refine ⟨?_, ?_, ?_, ?_⟩
        · rw [ih1, hstq, List.sum_cons]; ring
        · rw [ih2, hres]
        · rw [ih3, hcore]
        · rw [← h1]; simp [ih4]

theorem AddBatchesLoop_mass {s s4 : BatchReactor} {mat : Material}
    (hq : 0 ≤ mat.qty) (h : s.AddBatchesLoop_ mat = .ok s4) :
    ∃ dropped : Qty, 0 ≤ dropped ∧ dropped ≤ eps_rsrc ∧
      s4.reserves_.quantity = s.reserves_.quantity + mat.qty - dropped ∧
      s4.core_ = s.core_ ∧ s4.storage_ = s.storage_ := by
  simp only [BatchReactor.AddBatchesLoop_] at h
  generalize hpr : chunkLoop s.batch_size_ mat.recipe
      (⌈mat.qty / s.batch_size_⌉).toNat mat.qty = pr at h
  have hmass : listQty pr.1 + pr.2 = mat.qty := by
    rw [← hpr]; exact chunkLoop_mass _ _ _ _
  have hnn : 0 ≤ pr.2 := by
    rw [← hpr]; exact chunkLoop_snd_nonneg _ _ _ _ hq
  by_cases hrem : eps_rsrc < pr.2
  · rw [if_pos hrem] at h
    simp only [Except.ok.injEq] at h
    refine ⟨0, le_rfl, by norm_num [eps_rsrc], ?_, ?_, ?_⟩
    · rw [← h]
      show ((pr.1.foldl ResourceBuff.Push s.reserves_).Push
        ⟨pr.2, mat.recipe⟩).quantity = _
      rw [push_quantity, foldl_push_quantity]
      linarith
    · rw [← h]
    · rw [← h]
  · rw [if_neg hrem] at h
    simp only [Except.ok.injEq] at h
    refine ⟨pr.2, hnn, not_lt.mp hrem, ?_, ?_, ?_⟩
    · rw [← h]
      show (pr.1.foldl ResourceBuff.Push s.reserves_).quantity = _
      rw [foldl_push_quantity]
      linarith
    · rw [← h]
    · rw [← h]

theorem AddBatches_mass {s s4 : BatchReactor} {mat : Material}
    (hq : 0 ≤ mat.qty) (h : s.AddBatches_ mat = .ok s4) :
    ∃ dropped : Qty, 0 ≤ dropped ∧ dropped ≤ eps_rsrc ∧
      totalQty s4 = totalQty s + mat.qty - dropped := by
  unfold BatchReactor.AddBatches_ at h
  cases hpb : s.reserves_.PopBack with
  | error e => rw [hpb] at h; exact absurd h (by simp)
  | ok pr =>
    obtain ⟨last, res1⟩ := pr
    rw [hpb] at h
    dsimp only at h
    have hq0 : s.reserves_.quantity = res1.quantity + last.qty :=
      popBack_quantity hpb
    by_cases h1 : last.qty < s.batch_size_
    · rw [if_pos h1] at h
      by_cases h2 : last.qty + mat.qty ≤ s.batch_size_
      · rw [if_pos h2] at h
        simp only [Except.ok.injEq] at h
        refine ⟨0, le_rfl, by norm_num [eps_rsrc], ?_⟩
        rw [← h]
        simp only [totalQty, push_quantity, Material.Absorb]
        rw [hq0]
        ring
      · rw [if_neg h2] at h
        cases hex : mat.Extract (s.batch_size_ - last.qty) with
        | error e => rw [hex] at h; exact absurd h (by simp)
        | ok pr2 =>
          obtain ⟨last_bit, mat1⟩ := pr2
          rw [hex] at h
          dsimp only at h
          unfold Material.Extract at hex
          by_cases hlt : mat.qty < s.batch_size_ - last.qty
          · rw [if_pos hlt] at hex; exact absurd hex (by simp)
          · rw [if_neg hlt] at hex
            simp only [Except.ok.injEq, Prod.mk.injEq] at hex
            obtain ⟨hb, hm1⟩ := hex
            have hmat1 : 0 ≤ mat1.qty := by
              rw [← hm1]
              simp only []
              push_neg at h2
              linarith
            obtain ⟨dropped, hd0, hde, hres, hcore, hstor⟩ :=
              AddBatchesLoop_mass hmat1 h
            refine ⟨dropped, hd0, hde, ?_⟩
            simp only [totalQty, hcore, hstor, hres]
            simp only [push_quantity, Material.Absorb, ← hb, ← hm1]
            rw [hq0]
            ring
    · rw [if_neg h1] at h
      obtain ⟨dropped, hd0, hde, hres, hcore, hstor⟩ := AddBatchesLoop_mass hq h
      refine ⟨dropped, hd0, hde, ?_⟩
      simp only [totalQty, hcore, hstor, hres]
      simp only [push_quantity]
      rw [hq0]
      ring

theorem dischargeN_spec : ∀ (n : Nat) (s : BatchReactor),
    n ≤ s.core_.count →
    ∃ s1, s.dischargeN n = .ok s1 ∧
      s1.core_.mats = s.core_.mats.drop n ∧
      s1.storage_.mats = s.storage_.mats ++
        (s.core_.mats.take n).map (fun m => m.Transmute s.out_recipe_) ∧
      s1.reserves_ = s.reserves_ ∧
      s1.phase_ = s.phase_ ∧
      s1.start_time_ = s.start_time_ := by
  intro n
  induction n with
  | zero =>
    intro s _
    exact ⟨s, rfl, by simp, by simp, rfl, rfl, rfl⟩
  | succ n ih =>
    intro s hn
    cases hc : s.core_.mats with
    | nil =>
      exfalso
      rw [ResourceBuff.count, hc] at hn
      simp at hn
    | cons m rest =>
      have hmb : s.MoveBatchOut_ = .ok
          { s with core_ := ⟨rest⟩,
                   storage_ := s.storage_.Push (m.Transmute s.out_recipe_) } := by
        unfold BatchReactor.MoveBatchOut_ ResourceBuff.Pop
        rw [hc]
      obtain ⟨s1, hd, hcore, hstor, hres, hph, hst⟩ :=
        ih { s with core_ := ⟨rest⟩,
                    storage_ := s.storage_.Push (m.Transmute s.out_recipe_) }
          (by
            rw [ResourceBuff.count, hc] at hn
            simpa [ResourceBuff.count] using Nat.succ_le_succ_iff.mp hn)
      dsimp only [ResourceBuff.Push] at hd hcore hstor hres hph hst
      refine ⟨s1, ?_, ?_, ?_, hres, hph, hst⟩
      · show s.dischargeN (n + 1) = .ok s1
        unfold BatchReactor.dischargeN
        rw [hmb]
        exact hd
      · rw [hcore]
        simp
      · rw [hstor]
        simp [List.append_assoc]

/-! Claim theorems. -/

/-- C1 (amended): every successful tick and every tock leave
reserves + core + storage unchanged (internal moves transfer whole batches
and transmute preserves quantity); successful trade settlement decreases the
total by exactly the sum of the traded amounts; successful delivery
absorption increases the total by the delivered amount minus a discarded
remainder between 0 and eps_rsrc (the final remainder is dropped when it does
not exceed eps_rsrc, so the increase is not always exactly the delivered
amount). -/
theorem C1_mass_accounting (time ctxTime : Int) (s s1 s3 s4 : BatchReactor)
    (mat : Material) (trades : List Qty) (resps : List (Qty × Material))
    (htick : s.HandleTick time ctxTime = .ok s1)
    (htrades : s.GetMatlTrades trades = .ok (resps, s3))
    (hmat : 0 ≤ mat.qty)
    (hadd : s.AddBatches_ mat = .ok s4) :
    totalQty s1 = totalQty s ∧
    totalQty (s.HandleTock time) = totalQty s ∧
    totalQty s3 = totalQty s - trades.sum ∧
    ∃ dropped : Qty, 0 ≤ dropped ∧ dropped ≤ eps_rsrc ∧
      totalQty s4 = totalQty s + mat.qty - dropped := by
  refine ⟨HandleTick_mass htick, HandleTock_mass s time, ?_,
    AddBatches_mass hmat hadd⟩
  obtain ⟨hstq, hres, hcore, _⟩ := GetMatlTrades_ok trades s resps s3 htrades
  simp only [totalQty, hres, hcore, hstq]
  ring

/-- Witness for C1_mass_accounting at a concrete state: a no-op tick, a tock,
a trade of 5 and a delivery of 5. -/
theorem C1_mass_accounting_witness :
    c1State.HandleTick 0 0 = .ok c1State ∧
    c1State.GetMatlTrades [5] = .ok ([(5, ⟨5, "s"⟩)], c1TradeRes) ∧
    c1State.AddBatches_ ⟨5, "f"⟩ = .ok c1AddRes ∧
    (totalQty c1State = totalQty c1State ∧
      totalQty (c1State.HandleTock 0) = totalQty c1State ∧
      totalQty c1TradeRes = totalQty c1State - [(5 : Qty)].sum ∧
      ∃ dropped : Qty, 0 ≤ dropped ∧ dropped ≤ eps_rsrc ∧
        totalQty c1AddRes = totalQty c1State +
          (⟨5, "f"⟩ : Material).qty - dropped) := by
  refine ⟨by with_unfolding_all decide, by with_unfolding_all decide, by with_unfolding_all decide, ?_⟩
  exact C1_mass_accounting 0 0 c1State c1State c1TradeRes c1AddRes ⟨5, "f"⟩
    [5] [(5, ⟨5, "s"⟩)] (by with_unfolding_all decide) (by with_unfolding_all decide) (by with_unfolding_all decide) (by with_unfolding_all decide)

/-- C1 counterexample: delivering 10 + 1/2000000 (batch_size 10) into
reserves holding one full batch leaves a remainder of 1/2000000, which is at
most eps_rsrc and is silently dropped; the facility total grows by 10, not by
the delivered amount, refuting the claim that the total changes by exactly
the delivered amount on delivery absorption. -/
theorem C1_counterexample :
    c1State.AddBatches_ ⟨10 + 1/2000000, "f"⟩ = .ok c1xRes ∧
    totalQty c1xRes ≠ totalQty c1State + (10 + 1/2000000) := by
  constructor
  · with_unfolding_all decide
  · with_unfolding_all decide

/-- C2 (code bug): AddBatches_ starts with an unconditional PopBack on
reserves, so absorbing a 25-unit delivery into EMPTY reserves with
batch_size 10 fails with EmptyBufferError instead of leaving batches
(10, 10, 5) as the claim (and the spec scenario) state.  Every first delivery
of a freshly deployed facility hits this state, since all buffers start
empty. -/
theorem C2_addbatches_empty_reserves :
    ({ initialReactor with batch_size_ := 10 } : BatchReactor).AddBatches_
      ⟨25, "fresh"⟩ = .error .emptyBuffer := by
  with_unfolding_all decide

/-- C3: in the PROCESS phase, a tick at exactly start_time + process_time
pops the first n_load core batches in order, transmutes each to out_recipe,
appends them to storage in order, and sets the phase to WAITING; a PROCESS
tick at any other time returns the state unchanged (no buffer or phase
change).  (spec-modelled: end_time is declared only in the missing header,
modelled from the spec as start_time + process_time.) -/
theorem C3_discharge (time ctxTime : Int) (s : BatchReactor)
    (hp : s.phase_ = .PROCESS) :
    (time ≠ s.start_time_ + s.process_time_ →
      s.HandleTick time ctxTime = .ok s) ∧
    (time = s.start_time_ + s.process_time_ →
      s.n_load_.toNat ≤ s.core_.count →
      ∃ s1, s.HandleTick time ctxTime = .ok s1 ∧
        s1.phase_ = .WAITING ∧
        s1.core_.mats = s.core_.mats.drop s.n_load_.toNat ∧
        s1.storage_.mats = s.storage_.mats ++
          (s.core_.mats.take s.n_load_.toNat).map
            (fun m => m.Transmute s.out_recipe_) ∧
        s1.reserves_ = s.reserves_ ∧
        s1.start_time_ = s.start_time_) := by
  have hunf : s.HandleTick time ctxTime =
      (if time = s.start_time_ + s.process_time_ then
        match s.dischargeN s.n_load_.toNat with
        | .error e => .error e
        | .ok s1 => .ok (s1.phase ctxTime .WAITING)
      else .ok s) := by
    unfold BatchReactor.HandleTick
    rw [hp]
    rfl
  constructor
  · intro ht
    rw [hunf, if_neg ht]
  · intro ht hn
    obtain ⟨s1, hd, hcore, hstor, hres, hph, hst⟩ :=
      dischargeN_spec s.n_load_.toNat s hn
    refine ⟨s1.phase ctxTime .WAITING, ?_, ?_, ?_, ?_, ?_, ?_⟩
    · rw [hunf, if_pos ht, hd]
    · rfl
    · show (s1.phase ctxTime .WAITING).core_.mats = _
      rw [show (s1.phase ctxTime .WAITING).core_ = s1.core_ from rfl, hcore]
    · show (s1.phase ctxTime .WAITING).storage_.mats = _
      rw [show (s1.phase ctxTime .WAITING).storage_ = s1.storage_ from rfl,
        hstor]
    · rw [show (s1.phase ctxTime .WAITING).reserves_ = s1.reserves_ from rfl,
        hres]
    · rw [show (s1.phase ctxTime .WAITING).start_time_ = s1.start_time_ from
        rfl, hst]

/-- Witness for C3_discharge: a PROCESS facility with start_time 0 and
process_time 5 does nothing on the tick at time 3, and at time 5 discharges
its single batch (transmuted to "spent") to storage and moves to WAITING. -/
theorem C3_discharge_witness :
    c3State.HandleTick 3 0 = .ok c3State ∧
    (∃ s1, c3State.HandleTick 5 0 = .ok s1 ∧
      s1.phase_ = .WAITING ∧
      s1.core_.mats = c3State.core_.mats.drop c3State.n_load_.toNat ∧
      s1.storage_.mats = c3State.storage_.mats ++
        (c3State.core_.mats.take c3State.n_load_.toNat).map
          (fun m => m.Transmute c3State.out_recipe_) ∧
      s1.reserves_ = c3State.reserves_ ∧
      s1.start_time_ = c3State.start_time_) :=
  ⟨(C3_discharge 3 0 c3State rfl).1 (by with_unfolding_all decide),
   (C3_discharge 5 0 c3State rfl).2 (by with_unfolding_all decide)
     (by with_unfolding_all decide)⟩

/-- C4: on a WAITING tick, the transition to PROCESS happens exactly when the
core holds n_batches batches AND the end of the previous run
(start_time + process_time) plus refuel_time has been reached; entering
PROCESS records start_time = the current context time; otherwise the state is
unchanged, so the transition never fires early even with a full core and
never fires with a non-full core.  (spec-modelled: end_time and n_core are
declared only in the missing header, modelled from the spec.) -/
theorem C4_refuel_gate (time ctxTime : Int) (s s1 : BatchReactor)
    (hp : s.phase_ = .WAITING)
    (h : s.HandleTick time ctxTime = .ok s1) :
    (s1.phase_ = .PROCESS ↔
      ((s.core_.count : Int) = s.n_batches_ ∧
        s.start_time_ + s.process_time_ + s.refuel_time_ ≤ ctxTime)) ∧
    (s1.phase_ = .PROCESS → s1.start_time_ = ctxTime) ∧
    (s1.phase_ ≠ .PROCESS → s1 = s) := by
  have hunf : s.HandleTick time ctxTime =
      (if s.n_core = s.n_batches_ ∧ s.end_time + s.refuel_time_ ≤ ctxTime
      then .ok (s.phase ctxTime .PROCESS)
      else .ok s) := by
    unfold BatchReactor.HandleTick
    rw [hp]
  rw [hunf] at h
  by_cases hg : (s.n_core = s.n_batches_ ∧ s.end_time + s.refuel_time_ ≤ ctxTime)
  · rw [if_pos hg] at h
    simp only [Except.ok.injEq] at h
    have hph : s1.phase_ = .PROCESS := by rw [← h]; rfl
    have hstt : s1.start_time_ = ctxTime := by rw [← h]; rfl
    have hg2 : (s.core_.count : Int) = s.n_batches_ ∧
        s.start_time_ + s.process_time_ + s.refuel_time_ ≤ ctxTime := by
      refine ⟨hg.1, ?_⟩
      have := hg.2
      rw [BatchReactor.end_time] at this
      exact this
    exact ⟨⟨fun _ => hg2, fun _ => hph⟩, fun _ => hstt,
      fun hc => absurd hph hc⟩
  · rw [if_neg hg] at h
    simp only [Except.ok.injEq] at h
    have hs : s1 = s := h.symm
    have hph : s1.phase_ = .WAITING := by rw [hs, hp]
    have hnp : s1.phase_ ≠ .PROCESS := by
      rw [hph]; intro hc; exact Phase.noConfusion hc
    refine ⟨⟨fun hpr => absurd hpr hnp, fun hr => ?_⟩,
      fun hpr => absurd hpr hnp, fun _ => hs⟩
    exfalso
    apply hg
    refine ⟨hr.1, ?_⟩
    rw [BatchReactor.end_time]
    exact hr.2

/-- Witness for C4_refuel_gate: a WAITING facility with a full core, previous
run ending at tick 5 and refuel_time 2 transitions at context time 7,
recording start_time = 7. -/
theorem C4_refuel_gate_witness :
    c4State.HandleTick 7 7 = .ok c4Res ∧
    ((c4Res.phase_ = .PROCESS ↔
        ((c4State.core_.count : Int) = c4State.n_batches_ ∧
          c4State.start_time_ + c4State.process_time_ + c4State.refuel_time_ ≤
            7)) ∧
      (c4Res.phase_ = .PROCESS → c4Res.start_time_ = 7) ∧
      (c4Res.phase_ ≠ .PROCESS → c4Res = c4State)) :=
  ⟨by with_unfolding_all decide,
   C4_refuel_gate 7 7 c4State c4Res rfl (by with_unfolding_all decide)⟩

/-- C5 (amended): bid generation emits a bid of exactly the requested
quantity for every request strictly below storage.quantity() (and only for
those), at recipe out_recipe, and publishes one capacity constraint equal to
storage.quantity(); every individual bid quantity is strictly below the
published constraint, but the sum of the bid quantities of one portfolio can
exceed the constraint (the constraint, not the portfolio contents, is what
bounds what clearing may accept). -/
theorem C5_bids (s : BatchReactor) (requests : List Qty) :
    (∀ q ∈ requests, q < s.storage_.quantity →
      ({ req_qty := q, offer_qty := q, offer_recipe := s.out_recipe_ } :
        Bid) ∈ (s.GetMatlBids requests).bids) ∧
    (∀ b ∈ (s.GetMatlBids requests).bids,
      b.offer_qty = b.req_qty ∧ b.req_qty ∈ requests ∧
      b.req_qty < s.storage_.quantity ∧ b.offer_recipe = s.out_recipe_) ∧
    (s.GetMatlBids requests).constraint = s.storage_.quantity ∧
    (∀ b ∈ (s.GetMatlBids requests).bids,
      b.offer_qty < (s.GetMatlBids requests).constraint) := by
  refine ⟨?_, ?_, rfl, ?_⟩
  · intro q hq hlt
    simp only [BatchReactor.GetMatlBids, List.mem_map, List.mem_filter]
    exact ⟨q, ⟨hq, by simpa using hlt⟩, rfl⟩
  · intro b hb
    simp only [BatchReactor.GetMatlBids, List.mem_map, List.mem_filter] at hb
    obtain ⟨q, ⟨hq1, hq2⟩, rfl⟩ := hb
    exact ⟨rfl, hq1, by simpa using hq2, rfl⟩
  · intro b hb
    simp only [BatchReactor.GetMatlBids, List.mem_map, List.mem_filter] at hb
    obtain ⟨q, ⟨_, hq2⟩, rfl⟩ := hb
    simpa using hq2

/-- Witness for C5_bids at a concrete state: requests 4 and 20 against 10
units in storage produce exactly one bid, for the 4-unit request, below the
constraint 10. -/
theorem C5_bids_witness :
    (4 : Qty) ∈ [(4 : Qty), 20] ∧ (4 : Qty) < c5State.storage_.quantity ∧
    ({ req_qty := 4, offer_qty := 4, offer_recipe := "spent" } : Bid) ∈
      (c5State.GetMatlBids [4, 20]).bids ∧
    (c5State.GetMatlBids [4, 20]).constraint = c5State.storage_.quantity := by
  refine ⟨by with_unfolding_all decide, by with_unfolding_all decide, ?_,
    (C5_bids c5State [4, 20]).2.2.1⟩
  exact (C5_bids c5State [4, 20]).1 4 (by with_unfolding_all decide)
    (by with_unfolding_all decide)

/-- C5 counterexample: with 10 units in storage and two 9-unit requests, both
requests are bid on, so the portfolio's bid quantities sum to 18 while the
published capacity constraint is 10 — the sum of bid quantities in one
portfolio CAN exceed the constraint, refuting that part of the claim. -/
theorem C5_counterexample :
    (((c5State.GetMatlBids [9, 9]).bids.map Bid.offer_qty).sum >
      (c5State.GetMatlBids [9, 9]).constraint) := by
  with_unfolding_all decide

/-- C6 (amended): for every accepted trade of POSITIVE quantity qty,
settlement fails with InsufficientQuantityError exactly when qty exceeds
storage.quantity() at settlement time; otherwise it removes exactly qty from
storage (reserves and core untouched), merges the popped manifest into one
material of quantity qty by repeated Absorb, and returns it paired with the
trade.  (The positivity restriction is forced: a zero-quantity trade pops an
empty manifest and the manifest[0] access fails rather than returning a
unit.) -/
theorem C6_settlement (qty : Qty) (s : BatchReactor) (hpos : 0 < qty) :
    (s.storage_.quantity < qty →
      s.settleTrade qty = .error .insufficientQty ∧
      s.GetMatlTrades [qty] = .error .insufficientQty) ∧
    (qty ≤ s.storage_.quantity →
      ∃ m s1, s.settleTrade qty = .ok (m, s1) ∧
        m.qty = qty ∧
        s1.storage_.quantity = s.storage_.quantity - qty ∧
        s1.reserves_ = s.reserves_ ∧ s1.core_ = s.core_ ∧
        s.GetMatlTrades [qty] = .ok ([(qty, m)], s1)) := by
  constructor
  · intro hlt
    have hpq : s.storage_.PopQty qty = .error .insufficientQty := by
      unfold ResourceBuff.PopQty
      rw [if_pos hlt]
    have hset : s.settleTrade qty = .error .insufficientQty := by
      unfold BatchReactor.settleTrade
      rw [hpq]
    refine ⟨hset, ?_⟩
    unfold BatchReactor.GetMatlTrades
    rw [hset]
  · intro hle
    have hsums := popQtyLoop_sums s.storage_.mats qty hpos.le hle
    cases hman : (popQtyLoop s.storage_.mats qty).1 with
    | nil =>
      exfalso
      rw [hman] at hsums
      have : (0 : Qty) = qty := by simpa [listQty] using hsums.1
      exact absurd this.symm (ne_of_gt hpos)
    | cons m0 rest =>
      have hpop : s.storage_.PopQty qty =
          .ok (m0 :: rest, ⟨(popQtyLoop s.storage_.mats qty).2⟩) := by
        unfold ResourceBuff.PopQty
        rw [if_neg (not_lt.mpr hle), ← hman]
      have hset : s.settleTrade qty = .ok (rest.foldl Material.Absorb m0,
          { s with storage_ := ⟨(popQtyLoop s.storage_.mats qty).2⟩ }) := by
        unfold BatchReactor.settleTrade
        rw [hpop]
      refine ⟨rest.foldl Material.Absorb m0,
        { s with storage_ := ⟨(popQtyLoop s.storage_.mats qty).2⟩ },
        hset, ?_, ?_, rfl, rfl, ?_⟩
      · rw [foldl_absorb_qty]
        have hq : listQty (m0 :: rest) = qty := by
          rw [← hman]; exact hsums.1
        rw [listQty_cons] at hq
        linarith
      · show listQty (popQtyLoop s.storage_.mats qty).2 =
          s.storage_.quantity - qty
        exact hsums.2
      · show s.GetMatlTrades [qty] = _
        unfold BatchReactor.GetMatlTrades
        rw [hset]
        dsimp only
        rfl

/-- Witness for C6_settlement at a concrete state with 10 units in storage: a
trade of 15 fails with InsufficientQuantityError; a trade of 4 settles,
removing exactly 4. -/
theorem C6_settlement_witness :
    (c6State.settleTrade 15 = .error .insufficientQty ∧
      c6State.GetMatlTrades [15] = .error .insufficientQty) ∧
    (∃ m s1, c6State.settleTrade 4 = .ok (m, s1) ∧
      m.qty = 4 ∧
      s1.storage_.quantity = c6State.storage_.quantity - 4 ∧
      s1.reserves_ = c6State.reserves_ ∧ s1.core_ = c6State.core_ ∧
      c6State.GetMatlTrades [4] = .ok ([(4, m)], s1)) :=
  ⟨(C6_settlement 15 c6State (by with_unfolding_all decide)).1
      (by with_unfolding_all decide),
   (C6_settlement 4 c6State (by with_unfolding_all decide)).2
      (by with_unfolding_all decide)⟩

/-- C6 counterexample: a zero-quantity trade does not exceed the 5 units in
storage, yet settlement fails (the popped manifest is empty and the
manifest[0] access fails) instead of removing 0 and returning a unit — so the
claim's universal statement over every accepted trade fails at qty = 0. -/
theorem C6_counterexample :
    ({ initialReactor with storage_ := ⟨[⟨5, "s"⟩]⟩ } :
        BatchReactor).settleTrade 0 = .error .outOfRange ∧
    ¬ (({ initialReactor with storage_ := ⟨[⟨5, "s"⟩]⟩ } :
        BatchReactor).storage_.quantity < 0) := by
  constructor
  · with_unfolding_all decide
  · with_unfolding_all decide

/-- C7: on any tick where the order lookahead condition
order_time() ≤ current time holds, a fuel request is produced iff the deficit
n_reserves * batch_size - reserves.quantity() exceeds eps; the produced
request targets exactly the deficit of in_recipe at in_commodity with a
capacity constraint equal to the deficit; when the deficit is at most eps, no
request is produced.  (spec-modelled: order_time comes from the missing
header, modelled from the spec as end_time - preorder_time; the claim only
hypothesises order_time() ≤ current tick.) -/
theorem C7_requests (ctxTime : Int) (s : BatchReactor)
    (helig : s.order_time ≤ ctxTime) :
    (eps < (s.n_reserves_ : Qty) * s.batch_size_ - s.reserves_.quantity →
      s.GetMatlRequests ctxTime = some
        { req_qty := (s.n_reserves_ : Qty) * s.batch_size_ -
            s.reserves_.quantity,
          req_recipe := s.in_recipe_,
          req_commod := s.in_commodity_,
          constraint := (s.n_reserves_ : Qty) * s.batch_size_ -
            s.reserves_.quantity }) ∧
    ((s.n_reserves_ : Qty) * s.batch_size_ - s.reserves_.quantity ≤ eps →
      s.GetMatlRequests ctxTime = none) := by
  constructor
  · intro hdef
    unfold BatchReactor.GetMatlRequests
    rw [if_pos ⟨helig, hdef⟩]
    rfl
  · intro hdef
    unfold BatchReactor.GetMatlRequests
    rw [if_neg (fun hcon => absurd hcon.2 (not_lt.mpr hdef))]

/-- Witness for C7_requests: a facility wanting 2 reserve batches of 10 with
empty reserves requests exactly 20 (order_time = 0 ≤ 0); the same facility
with 20 units already in reserves requests nothing. -/
theorem C7_requests_witness :
    c7State.GetMatlRequests 0 = some
      { req_qty := 20, req_recipe := "", req_commod := "",
        constraint := 20 } ∧
    c7Full.GetMatlRequests 0 = none := by
  constructor
  · rw [(C7_requests 0 c7State (by with_unfolding_all decide)).1
      (by with_unfolding_all decide)]
    with_unfolding_all decide
  · exact (C7_requests 0 c7Full (by with_unfolding_all decide)).2
      (by with_unfolding_all decide)

/-- C8 (amended): initialization performs NO range validation and raises no
ConfigurationError: every parsed configuration — including one with a
non-positive batch_size — is accepted, and its values are stored verbatim
(optional fields falling back to the current member values, with norder
defaulting to the already-updated n_load). -/
theorem C8_no_validation (s : BatchReactor) (cfg : InputConfig) :
    ∃ r, s.InitModuleMembers cfg = .ok r ∧
      r.batch_size_ = (cfg.batchsize : Qty) ∧
      r.process_time_ = cfg.processtime ∧
      r.n_batches_ = cfg.nbatches ∧
      r.refuel_time_ = cfg.refueltime.getD s.refuel_time_ ∧
      r.preorder_time_ = cfg.orderlookahead.getD s.preorder_time_ ∧
      r.n_load_ = cfg.nreload.getD s.n_load_ ∧
      r.n_reserves_ = cfg.norder.getD (cfg.nreload.getD s.n_load_) ∧
      r.in_commodity_ = cfg.incommodity ∧ r.in_recipe_ = cfg.inrecipe ∧
      r.out_commodity_ = cfg.outcommodity ∧ r.out_recipe_ = cfg.outrecipe :=
  ⟨_, rfl, rfl, rfl, rfl, rfl, rfl, rfl, rfl, rfl, rfl, rfl, rfl⟩

/-- C8 counterexample: a configuration with the non-positive batchsize -1
(and otherwise valid fields) is accepted by InitModuleMembers — the result is
a normal state carrying batch_size -1, not a ConfigurationError; no such
error exists anywhere in the function. -/
theorem C8_counterexample :
    initialReactor.InitModuleMembers cfg8 = .ok
      { process_time_ := 5
        preorder_time_ := 0
        start_time_ := -1
        n_batches_ := 3
        n_load_ := 1
        n_reserves_ := 1
        refuel_time_ := 0
        batch_size_ := -1
        in_commodity_ := "uox"
        in_recipe_ := "fresh"
        out_commodity_ := "spent-uox"
        out_recipe_ := "spent"
        phase_ := .INITIAL
        reserves_ := ⟨[]⟩
        core_ := ⟨[]⟩
        storage_ := ⟨[]⟩ } ∧
    (cfg8.batchsize : Qty) ≤ 0 := by
  constructor
  · with_unfolding_all decide
  · with_unfolding_all decide

/-- C9 (code bug): Clone copies the in/out commodities and recipes,
process_time, preorder_time, start_time, n_batches, n_load, n_reserves and
batch_size, and the clone's buffers are empty — but the copy list omits
refuel_time, so a facility with refuel_time 7 clones to one with the
constructor default 0, contradicting the claim (and the evident intent of
the surrounding field-by-field copy). -/
theorem C9_clone_refuel_time :
    c9State.refuel_time_ = 7 ∧
    c9State.Clone.refuel_time_ = 0 ∧
    c9State.Clone.process_time_ = c9State.process_time_ ∧
    c9State.Clone.preorder_time_ = c9State.preorder_time_ ∧
    c9State.Clone.n_batches_ = c9State.n_batches_ ∧
    c9State.Clone.n_load_ = c9State.n_load_ ∧
    c9State.Clone.n_reserves_ = c9State.n_reserves_ ∧
    c9State.Clone.batch_size_ = c9State.batch_size_ ∧
    c9State.Clone.in_commodity_ = c9State.in_commodity_ ∧
    c9State.Clone.out_commodity_ = c9State.out_commodity_ ∧
    c9State.Clone.in_recipe_ = c9State.in_recipe_ ∧
    c9State.Clone.out_recipe_ = c9State.out_recipe_ ∧
    c9State.Clone.reserves_ = ⟨[]⟩ ∧
    c9State.Clone.core_ = ⟨[]⟩ ∧
    c9State.Clone.storage_ = ⟨[]⟩ := by
  with_unfolding_all decide

/-- C10: AcceptMatlTrades merges every delivered material into the first one
by repeated Absorb and then runs exactly one AddBatches_ quantization pass on
the combined material, whose quantity is the sum of all delivered
quantities; it reads the first response unconditionally, so on an empty
response list the element access fails (responses.at(0) throws) instead of
being a no-op. -/
theorem C10_accept (s : BatchReactor) (responses : List Material) :
    (responses = [] → s.AcceptMatlTrades responses = .error .outOfRange) ∧
    (∀ m0 rest, responses = m0 :: rest →
      s.AcceptMatlTrades responses =
        s.AddBatches_ (rest.foldl Material.Absorb m0) ∧
      (rest.foldl Material.Absorb m0).qty = listQty responses) := by
  constructor
  · intro h
    rw [h]
    rfl
  · intro m0 rest h
    rw [h]
    constructor
    · rfl
    · rw [foldl_absorb_qty, listQty_cons]

/-- Witness for C10_accept: an empty response list fails; responses of 3 and
4 units are merged into one 7-unit material handed to a single AddBatches_
pass. -/
theorem C10_accept_witness :
    initialReactor.AcceptMatlTrades [] = .error .outOfRange ∧
    (initialReactor.AcceptMatlTrades [⟨3, "a"⟩, ⟨4, "b"⟩] =
      initialReactor.AddBatches_
        (([⟨4, "b"⟩] : List Material).foldl Material.Absorb ⟨3, "a"⟩) ∧
      (([⟨4, "b"⟩] : List Material).foldl Material.Absorb ⟨3, "a"⟩).qty =
        listQty [⟨3, "a"⟩, ⟨4, "b"⟩]) :=
  ⟨(C10_accept initialReactor []).1 rfl,
   (C10_accept initialReactor [⟨3, "a"⟩, ⟨4, "b"⟩]).2 ⟨3, "a"⟩ [⟨4, "b"⟩] rfl⟩

end Cycamore
